import Mathlib

/-!
# simple-tls: the server bootstrap (`core/server.go`, `core/utils.go`)

A shallow embedding of the parts of `Server.ActiveAndServe` and of
`GenerateCertificate` / `randServerName` / `randStr` that decide which
certificate is served, which connections are accepted, and how the
destination string is turned into registered gRPC routes.

Conventions

* A Go `string` is a `List Char`.  Every separator the code looks for
  (`/`, `,`) is a one-byte ASCII character, so splitting by character and
  splitting by byte agree.
* Calls into collaborators whose effect is not a returned value (the
  logger, the gRPC registration, the X.509 loaders) are recorded, in call
  order, in a trace of `Effect`s.
* Library functions whose results the code only inspects for `err != nil`
  are fields of an oracle structure; the theorems quantify over them.
-/

namespace SimpleTLS

/-- A Go string. -/
abbrev GoString := List Char

/-! ## The pieces of package `strings` used by the route loop -/

/-- The function `strings.ContainsAny(s, chars)`: some character of `s` is in `chars`. -/
def containsAny (s chars : GoString) : Bool :=
  s.any (fun c => chars.contains c)

/-- The function `strings.Cut(s, sep)` for a one-character separator: the text before
and after the first occurrence of `sep`, and whether it was found; when it
is not found the result is `(s, "", false)`. -/
def cut : GoString → Char → GoString × GoString × Bool
  | [], _ => ([], [], false)
  | c :: cs, sep =>
    if c = sep then ([], cs, true)
    else
      match cut cs sep with
      | (before, after, true) => (c :: before, after, true)
      | (_, _, false) => (c :: cs, [], false)

/-- The function `strings.Split(s, sep)` for a one-character separator: the pieces of
`s` between consecutive occurrences of `sep`; one more piece than there are
separators, so `Split("", ",")` is `[""]`. -/
def split : GoString → Char → List GoString
  | [], _ => [[]]
  | c :: cs, sep =>
    if c = sep then [] :: split cs sep
    else
      match split cs sep with
      | [] => [[c]]
      | p :: ps => (c :: p) :: ps

/-! ## Errors -/

/-- A Go `error`: a message, or a leading text wrapping another error
(`fmt.Errorf("...: %w", err)`). -/
inductive GoError where
  | msg (text : GoString)
  | wrap (pfx : GoString) (inner : GoError)
  deriving DecidableEq, Repr

/-- The text of an error (`err.Error()`). -/
def GoError.Error : GoError → GoString
  | .msg text => text
  | .wrap pfx inner => pfx ++ inner.Error

/-- How a Go call ends: with a value, with a returned error, or in a
run-time panic. -/
inductive Outcome (α : Type) where
  | ok (value : α)
  | err (e : GoError)
  | panic
  deriving DecidableEq, Repr

/-- The package-level `errMissingCertOrKey`. -/
def errMissingCertOrKey : GoError :=
  .msg "one of cert or key argument is missing".toList

/-! ## The server value and the effects of starting it -/

/-- The transport handler `outboundHandler(dst)` yields: the test handler
when one is installed, otherwise `NewDstTransportHandler(dst, IdleTimeout,
OutboundBuf)`, kept as a term in its three arguments. -/
inductive TransportHandler where
  | test
  | dst (addr : GoString) (idleTimeout : Int) (outboundBuf : Int)
  deriving DecidableEq, Repr

/-- A loaded `tls.Certificate`: the certificate and key material it was
built from. -/
structure TLSCertificate where
  certPEM : GoString
  keyPEM : GoString
  deriving DecidableEq, Repr

/-- The fields of `Server` the bootstrap reads.  `testCert` is the
installed test certificate, if any; `testTransportHandler` says whether a
test handler is installed. -/
structure Server where
  BindAddr : GoString := []
  DstAddr : GoString := []
  GRPC : Bool := false
  GRPCServiceName : GoString := []
  Cert : GoString := []
  Key : GoString := []
  ServerName : GoString := []
  IdleTimeout : Int := 0
  OutboundBuf : Int := 0
  InboundBuf : Int := 0
  testCert : Option TLSCertificate := none
  testTransportHandler : Bool := false

/-- What the bootstrap does to the outside world, in call order. -/
inductive Effect where
  | log (line : GoString)
  | x509KeyPair (certPEM keyPEM : GoString)
  | generateCertificate (serverName : GoString)
  | loadX509KeyPair (certFile keyFile : GoString)
  | register (name : GoString) (handler : TransportHandler)
  deriving DecidableEq, Repr

/-- The closure `outboundHandler` of `ActiveAndServe`. -/
def outboundHandler (s : Server) (dst : GoString) : TransportHandler :=
  if s.testTransportHandler then .test
  else .dst dst s.IdleTimeout s.OutboundBuf

/-- Modelled from the spec: `grpc_tunnel.RegisterGRPCTunnelServerAddon` is
not among the sources; the spec describes it as a registration function
taking the server, a per-path handler and the path or service name.  The
caller inspects nothing it returns, so the call is recorded as an effect. -/
def RegisterGRPCTunnelServerAddon (trace : List Effect)
    (handler : TransportHandler) (name : GoString) : List Effect :=
  trace ++ [.register name handler]

/-- The error of a peer without a path separator:
`fmt.Errorf("invalid dst value [%s]", peer)`. -/
def invalidDst (peer : GoString) : GoError :=
  .msg ("invalid dst value [".toList ++ peer ++ "]".toList)

/-- The log line `"starting grpc func at path %s -> %s"`. -/
def startingLine (path dst : GoString) : GoString :=
  "starting grpc func at path ".toList ++ path ++ " -> ".toList ++ dst

/-- The body of `for _, peer := range pathDstPeers`: each peer is cut at
its first `/`; a peer without one ends the function with an error, the
registrations made so far staying made. -/
def registerPeers (s : Server) : List GoString → List Effect → List Effect × Option GoError
  | [], trace => (trace, none)
  | peer :: rest, trace =>
    match cut peer '/' with
    | (_, _, false) => (trace, some (invalidDst peer))
    | (path, dst, true) =>
      registerPeers s rest
        (RegisterGRPCTunnelServerAddon (trace ++ [.log (startingLine path dst)])
          (outboundHandler s dst) path)

/-- The route registration of the gRPC branch of `ActiveAndServe`
(the `if d := s.DstAddr; strings.ContainsAny(d, "/,")` statement): the
effects performed and the error returned, if any. -/
def registerRoutes (s : Server) : List Effect × Option GoError :=
  if containsAny s.DstAddr "/,".toList then
    registerPeers s (split s.DstAddr ',') []
  else
    (RegisterGRPCTunnelServerAddon [] (outboundHandler s s.DstAddr) s.GRPCServiceName, none)

/-- The `(name, handler)` pairs registered by a trace, in call order. -/
def registered : List Effect → List (GoString × TransportHandler)
  | [] => []
  | .register name handler :: rest => (name, handler) :: registered rest
  | _ :: rest => registered rest

/-- A destination string written from `(path, destination)` pairs: each
pair as `path/destination`, the pairs joined by commas. -/
def formatRoutes (pairs : List (GoString × GoString)) : GoString :=
  [','].intercalate (pairs.map (fun pd => pd.1 ++ '/' :: pd.2))

/-! ## The route loop over a registration that refuses a repeated name -/

/-- Modelled from the spec: the error kind `DuplicatePathError`, with which
a repeated path must fail.  The spec fixes its name only; the text here is
that name followed by the repeated path. -/
def DuplicatePathError (path : GoString) : GoError :=
  .msg ("DuplicatePathError: ".toList ++ path)

/-- Modelled from the spec: what `grpc_tunnel.RegisterGRPCTunnelServerAddon`,
which is not among the sources, does with a name the server already has.
The spec requires that no two addons share a path and that a repeated path
fail explicitly with `DuplicatePathError`: a name already registered on the
server ends the start-up with that error, and any other name is registered
as `RegisterGRPCTunnelServerAddon` records it. -/
def registerAddonChecked (trace : List Effect) (handler : TransportHandler)
    (name : GoString) : Except GoError (List Effect) :=
  if name ∈ (registered trace).map Prod.fst then .error (DuplicatePathError name)
  else .ok (RegisterGRPCTunnelServerAddon trace handler name)

/-- The loop `for _, peer := range pathDstPeers` over the registration
that refuses a repeated name: as `registerPeers`, and a refused
registration ends the function there, after the log line of its peer. -/
def registerPeersChecked (s : Server) :
    List GoString → List Effect → List Effect × Option GoError
  | [], trace => (trace, none)
  | peer :: rest, trace =>
    match cut peer '/' with
    | (_, _, false) => (trace, some (invalidDst peer))
    | (path, dst, true) =>
      match registerAddonChecked (trace ++ [.log (startingLine path dst)])
          (outboundHandler s dst) path with
      | .error e => (trace ++ [.log (startingLine path dst)], some e)
      | .ok trace2 => registerPeersChecked s rest trace2

/-- The route registration of the gRPC branch of `ActiveAndServe` over the
registration that refuses a repeated name, on the server just created. -/
def registerRoutesChecked (s : Server) : List Effect × Option GoError :=
  if containsAny s.DstAddr "/,".toList then
    registerPeersChecked s (split s.DstAddr ',') []
  else
    match registerAddonChecked [] (outboundHandler s s.DstAddr) s.GRPCServiceName with
    | .error e => ([], some e)
    | .ok trace => (trace, none)

/-! ## The connection check of the TLS configuration -/

/-- The constant `tls.VersionTLS13`. -/
def VersionTLS13 : Nat := 0x0304

/-- The field of `tls.ConnectionState` the check reads (a `uint16`). -/
structure ConnectionState where
  Version : Nat

/-- The `VerifyConnection` callback of `tlsConfig`: `none` is Go's `nil`
error, `%d` prints the version in decimal. -/
def VerifyConnection (state : ConnectionState) : Option GoError :=
  if state.Version ≠ VersionTLS13 then
    some (.msg ("unsafe tls version ".toList ++ Nat.toDigits 10 state.Version))
  else none

/-! ## `randStr` and `randServerName` -/

/-- A `*rand.Rand`: the raw values its source will produce and how many
have been consumed. -/
structure Rand where
  draws : Nat → Nat
  pos : Nat

/-- The method `r.Intn(n)`: a value in `[0, n)` taken from the next raw
value of the source; it panics (`none`) when `n` is not positive. -/
def Rand.Intn (r : Rand) (n : Nat) : Option (Nat × Rand) :=
  if n = 0 then none
  else some (r.draws r.pos % n, { r with pos := r.pos + 1 })

/-- The alphabet `set` of `randStr`. -/
def alphabet : GoString := "abcdefghijklmnopqrstuvwxyz".toList

/-- The function `randStr(length, r)`: byte `i` of the result is
`set[r.Intn(len(set))]`, filled for `i = 0, 1, ...`; `none` is a panic (an
index out of range, or `Intn` of a non-positive bound).  The generator is
returned with the result, since the caller goes on using it. -/
def randStr : Nat → Rand → Option (GoString × Rand)
  | 0, r => some ([], r)
  | length + 1, r =>
    match r.Intn alphabet.length with
    | none => none
    | some (k, r1) =>
      match alphabet.get? k with
      | none => none
      | some c =>
        match randStr length r1 with
        | none => none
        | some (rest, r2) => some (c :: rest, r2)

/-- The function `randServerName()`, given the generator `r` it creates
from the clock: `fmt.Sprintf("%s.%s", randStr(r.Intn(5)+3, r),
randStr(r.Intn(3)+1, r))`, the calls evaluated left to right. -/
def randServerName (r : Rand) : Option GoString :=
  match r.Intn 5 with
  | none => none
  | some (n1, r1) =>
    match randStr (n1 + 3) r1 with
    | none => none
    | some (l1, r2) =>
      match r2.Intn 3 with
      | none => none
      | some (n2, r3) =>
        match randStr (n2 + 1) r3 with
        | none => none
        | some (l2, _) => some (l1 ++ ".".toList ++ l2)

/-! ## `GenerateCertificate` -/

/-- The field of `pkix.Name` the generator sets. -/
structure Name where
  CommonName : GoString := []
  deriving DecidableEq, Repr

/-- The constant `x509.KeyUsageDigitalSignature`. -/
def KeyUsageDigitalSignature : Nat := 1

/-- The constant `x509.KeyUsageKeyEncipherment`. -/
def KeyUsageKeyEncipherment : Nat := 4

/-- The constant `x509.ExtKeyUsageServerAuth`. -/
def ExtKeyUsageServerAuth : Nat := 1

/-- The constant `x509.UnknownSignatureAlgorithm`. -/
def UnknownSignatureAlgorithm : Nat := 0

/-- The fields of `x509.Certificate` the generator reads or writes.  Keys
and times are kept as the numbers the oracles hand out. -/
structure Certificate where
  SerialNumber : Option Nat := none
  Subject : Name := {}
  Issuer : Name := {}
  DNSNames : List GoString := []
  NotBefore : Int := 0
  NotAfter : Int := 0
  KeyUsage : Nat := 0
  ExtKeyUsage : List Nat := []
  BasicConstraintsValid : Bool := false
  SignatureAlgorithm : Nat := 0
  PublicKey : Option Nat := none
  deriving DecidableEq, Repr

/-- The library calls of `GenerateCertificate` and what they answer:
key generation, the random serial number, the clock readings (one per
`time.Now()` in the function), `AddDate(10, 0, 0)`, signing, key
marshalling, PEM encoding, parsing, and the generator `randServerName`
seeds from the clock. -/
structure GenOracle where
  GenerateKey : Except GoError Nat
  randInt : Nat → Except GoError Nat
  nowNotBefore : Int
  nowNotAfter : Int
  addTenYears : Int → Int
  CreateCertificate : Certificate → Certificate → Nat → Except GoError GoString
  MarshalPKCS8PrivateKey : Nat → Except GoError GoString
  EncodeToMemory : GoString → GoString → GoString
  ParseCertificate : GoString → Except GoError Certificate
  rng : Rand

/-- The named results of `GenerateCertificate`; the call succeeded when
`err` is `none`. -/
structure GenResult where
  dnsName : GoString := []
  cert : Option Certificate := none
  keyPEM : GoString := []
  certPEM : GoString := []
  err : Option GoError := none
  deriving DecidableEq, Repr

/-- The bound `serialNumberLimit` of the serial number, `1 << 128`. -/
def serialNumberLimit : Nat := 2 ^ 128

/-- The `// set DNSNames` step of `GenerateCertificate`: the server name,
or a random one when it is empty; `none` when `randServerName` panics. -/
def chooseDNSName (o : GenOracle) (serverName : GoString) : Option GoString :=
  if serverName.length = 0 then randServerName o.rng else some serverName

/-- The `if template == nil` statement of `GenerateCertificate`: the
template to sign and the DNS name to return, or the serial-number error.
Without a template a fresh one is built around `dnsName`; a template with
DNS names replaces `dnsName` by its first one. -/
def prepareTemplate (o : GenOracle) (dnsName : GoString) :
    Option Certificate → Except GoError (GoString × Certificate)
  | none =>
    match o.randInt serialNumberLimit with
    | .error e => .error (.msg ("generate serial number: ".toList ++ e.Error))
    | .ok serialNumber =>
      .ok (dnsName,
        { SerialNumber := some serialNumber
          Subject := { CommonName := dnsName }
          DNSNames := [dnsName]
          NotBefore := o.nowNotBefore
          KeyUsage := KeyUsageKeyEncipherment ||| KeyUsageDigitalSignature
          ExtKeyUsage := [ExtKeyUsageServerAuth]
          BasicConstraintsValid := true })
  | some t =>
    if t.DNSNames.length > 0 then .ok (t.DNSNames.headD [], t) else .ok (dnsName, t)

/-- The rest of `GenerateCertificate`, from `template.NotAfter = ...` on:
normalise the template, sign it, marshal and encode the key, parse the
certificate back.  A failing step returns the results named so far.  The
assignments to `template` that follow `x509.CreateCertificate` change only
the caller's template, which is not among the results. -/
def signAndEncode (o : GenOracle) (key : Nat) (dnsName : GoString) (template : Certificate) :
    GenResult :=
  let template : Certificate :=
    { template with
      NotAfter := o.addTenYears o.nowNotAfter
      SignatureAlgorithm := UnknownSignatureAlgorithm
      PublicKey := none }
  let parent : Certificate := { SerialNumber := some 0, Subject := template.Issuer }
  match o.CreateCertificate template parent key with
  | .error e => { dnsName := dnsName, err := some e }
  | .ok certDER =>
    match o.MarshalPKCS8PrivateKey key with
    | .error e => { dnsName := dnsName, err := some e }
    | .ok b =>
      let keyPEM := o.EncodeToMemory "EC PRIVATE KEY".toList b
      let certPEM := o.EncodeToMemory "CERTIFICATE".toList certDER
      match o.ParseCertificate certDER with
      | .error e => { dnsName := dnsName, keyPEM := keyPEM, certPEM := certPEM, err := some e }
      | .ok cert => { dnsName := dnsName, cert := some cert, keyPEM := keyPEM, certPEM := certPEM }

/-- The function `GenerateCertificate(serverName, template)`; `template`
is `none` for a nil pointer.  The result is `none` when the call panics. -/
def GenerateCertificate (o : GenOracle) (serverName : GoString)
    (template : Option Certificate) : Option GenResult :=
  -- priv key
  match o.GenerateKey with
  | .error e => some { err := some e }
  | .ok key =>
    match chooseDNSName o serverName with
    | none => none
    | some dnsName =>
      match prepareTemplate o dnsName template with
      | .error e => some { dnsName := dnsName, err := some e }
      | .ok (dnsName, template) => some (signAndEncode o key dnsName template)

/-- The name of the environment variable holding the inline certificate. -/
def envCertName : GoString := "SIMPLE_TLS_CERT".toList

/-- The name of the environment variable holding the inline key. -/
def envKeyName : GoString := "SIMPLE_TLS_KEY".toList

/-! ## The certificate switch of `ActiveAndServe` -/

/-- The calls the certificate switch makes outside the package: the
process environment, `tls.X509KeyPair`, `tls.LoadX509KeyPair`, and the
oracle of the generator. -/
structure CertOracle where
  Getenv : GoString → GoString
  X509KeyPair : GoString → GoString → Except GoError TLSCertificate
  LoadX509KeyPair : GoString → GoString → Except GoError TLSCertificate
  gen : GenOracle

/-- The `switch` that chooses the certificate (the `else` branch of
`if s.testCert != nil`): the calls it makes, in order, and how it ends. -/
def certSwitch (o : CertOracle) (s : Server) : List Effect × Outcome TLSCertificate :=
  let envCert := o.Getenv envCertName
  let envKey := o.Getenv envKeyName
  if envCert.length > 0 ∧ envKey.length > 0 then
    -- cert and key from env
    match o.X509KeyPair envCert envKey with
    | .error e =>
      ([.x509KeyPair envCert envKey],
        .err (.wrap "failed load x509 key pair from env: ".toList e))
    | .ok cer => ([.x509KeyPair envCert envKey], .ok cer)
  else if s.Cert.length = 0 ∧ s.Key.length = 0 then
    -- no cert and key
    match GenerateCertificate o.gen s.ServerName none with
    | none => ([.generateCertificate s.ServerName], .panic)
    | some r =>
      match r.err with
      | some e =>
        ([.generateCertificate s.ServerName],
          .err (.wrap "failed to generate temp cert: ".toList e))
      | none =>
        let line :=
          "warnning: you are using a tmp certificate with dns name: ".toList ++ r.dnsName
        let trace : List Effect :=
          [.generateCertificate s.ServerName, .log line, .x509KeyPair r.certPEM r.keyPEM]
        match o.X509KeyPair r.certPEM r.keyPEM with
        | .error e =>
          (trace, .err (.wrap "cannot load x509 key pair from memory: ".toList e))
        | .ok cer => (trace, .ok cer)
  else if s.Cert.length ≠ 0 ∧ s.Key.length ≠ 0 then
    -- has a cert and a key
    match o.LoadX509KeyPair s.Cert s.Key with
    | .error e =>
      ([.loadX509KeyPair s.Cert s.Key],
        .err (.wrap "cannot load x509 key pair from disk: ".toList e))
    | .ok cer => ([.loadX509KeyPair s.Cert s.Key], .ok cer)
  else
    ([], .err errMissingCertOrKey)

/-- The certificate `ActiveAndServe` serves: the test certificate when one
is installed, otherwise what the switch yields. -/
def selectCertificate (o : CertOracle) (s : Server) : List Effect × Outcome TLSCertificate :=
  match s.testCert with
  | some c => ([], .ok c)
  | none => certSwitch o s

/-! ## Sample inputs -/

/-- A generator oracle in which every library call succeeds, signing
apart when the template has no serial number. -/
def sampleGen : GenOracle where
  GenerateKey := .ok 1
  randInt := fun _ => .ok 7
  nowNotBefore := 1000
  nowNotAfter := 1001
  addTenYears := fun t => t + 10
  CreateCertificate := fun template _ _ =>
    match template.SerialNumber with
    | none => .error (.msg "x509: no SerialNumber given".toList)
    | some _ => .ok "DER".toList
  MarshalPKCS8PrivateKey := fun _ => .ok "PKCS8".toList
  EncodeToMemory := fun blockType bytes => blockType ++ ":".toList ++ bytes
  ParseCertificate := fun _ => .ok {}
  rng := { draws := fun i => 7 * i + 3, pos := 0 }

/-- An environment in which `SIMPLE_TLS_CERT` is `cert`, `SIMPLE_TLS_KEY`
is `key`, and every other variable is unset. -/
def sampleEnv (cert key : GoString) (name : GoString) : GoString :=
  if name = envCertName then cert
  else if name = envKeyName then key
  else []

/-- An oracle with the given inline certificate and key in which every
key pair parses and every file loads. -/
def sampleOracle (cert key : GoString) : CertOracle where
  Getenv := sampleEnv cert key
  X509KeyPair := fun c k => .ok { certPEM := c, keyPEM := k }
  LoadX509KeyPair := fun c k => .ok { certPEM := c, keyPEM := k }
  gen := sampleGen

/-- What `GenerateCertificate` returns under `sampleGen` for an empty
server name and no template. -/
def sampleResult : GenResult where
  dnsName := "kryfmt.ho".toList
  cert := some {}
  keyPEM := "EC PRIVATE KEY:PKCS8".toList
  certPEM := "CERTIFICATE:DER".toList

/-! ## Theorems: the connection check -/

/-- C1: the connection check returns an error if and only if the
negotiated version differs from TLS 1.3 (0x0304); it accepts exactly that
version and rejects every other one, lower or higher. -/
theorem VerifyConnection_error_iff (state : ConnectionState) :
    ((∃ e, VerifyConnection state = some e) ↔ state.Version ≠ 0x0304) ∧
    (VerifyConnection state = none ↔ state.Version = 0x0304) := by
  unfold VerifyConnection VersionTLS13
  by_cases h : state.Version = 0x0304
  · simp [h]
  · simp [h]

/-! ## Theorems: the certificate switch -/

/-- C2: whenever both inline values are non-empty, whatever the disk
paths and the server name, the switch makes exactly one outside call, the
parse of the inline pair, and ends as that parse ends: with the parsed
certificate, or with the key-pair error wrapped. -/
theorem certSwitch_inline_priority (o : CertOracle) (s : Server)
    (hc : o.Getenv envCertName ≠ []) (hk : o.Getenv envKeyName ≠ []) :
    certSwitch o s =
      ([.x509KeyPair (o.Getenv envCertName) (o.Getenv envKeyName)],
        match o.X509KeyPair (o.Getenv envCertName) (o.Getenv envKeyName) with
        | .ok cer => .ok cer
        | .error e => .err (.wrap "failed load x509 key pair from env: ".toList e)) := by
  have h1 : (o.Getenv envCertName).length > 0 := List.length_pos.mpr hc
  have h2 : (o.Getenv envKeyName).length > 0 := List.length_pos.mpr hk
  unfold certSwitch
  simp only [h1, h2, and_self, if_true]
  cases o.X509KeyPair (o.Getenv envCertName) (o.Getenv envKeyName) <;> rfl

/-- C2, at an input with both disk paths and a server name set. -/
theorem certSwitch_inline_priority_witness :
    certSwitch (sampleOracle "CERT".toList "KEY".toList)
        { Cert := "c.pem".toList, Key := "k.pem".toList, ServerName := "example.test".toList } =
      ([.x509KeyPair "CERT".toList "KEY".toList],
        .ok { certPEM := "CERT".toList, keyPEM := "KEY".toList }) :=
  certSwitch_inline_priority (sampleOracle "CERT".toList "KEY".toList)
    { Cert := "c.pem".toList, Key := "k.pem".toList, ServerName := "example.test".toList }
    (by decide) (by decide)

/-- The ephemeral branch of the switch, entered when the inline pair is
incomplete and both disk paths are empty. -/
theorem certSwitch_ephemeral_branch (o : CertOracle) (s : Server)
    (hin : ¬ (o.Getenv envCertName ≠ [] ∧ o.Getenv envKeyName ≠ []))
    (hc : s.Cert = []) (hk : s.Key = []) :
    certSwitch o s =
      match GenerateCertificate o.gen s.ServerName none with
      | none => ([.generateCertificate s.ServerName], .panic)
      | some r =>
        match r.err with
        | some e =>
          ([.generateCertificate s.ServerName],
            .err (.wrap "failed to generate temp cert: ".toList e))
        | none =>
          ([.generateCertificate s.ServerName,
            .log ("warnning: you are using a tmp certificate with dns name: ".toList
              ++ r.dnsName),
            .x509KeyPair r.certPEM r.keyPEM],
            match o.X509KeyPair r.certPEM r.keyPEM with
            | .error e => .err (.wrap "cannot load x509 key pair from memory: ".toList e)
            | .ok cer => .ok cer) := by
  have h1 : ¬ ((o.Getenv envCertName).length > 0 ∧ (o.Getenv envKeyName).length > 0) := by
    simpa [List.length_pos] using hin
  unfold certSwitch
  simp only [h1, if_false, hc, hk, List.length_nil, and_self, if_true]
  cases GenerateCertificate o.gen s.ServerName none with
  | none => rfl
  | some r =>
    simp only
    cases r.err with
    | some e => rfl
    | none =>
      simp only
      cases o.X509KeyPair r.certPEM r.keyPEM <;> rfl

/-- C3, as the code has it: when exactly one inline value is non-empty and
both disk paths are empty, the switch ignores the lone inline value and
takes the ephemeral branch: its first call is the generator, with the
server name; it does not end with `errMissingCertOrKey`; and when
generation succeeds it logs the warning and ends as the parse of the
generated pair ends. -/
theorem certSwitch_lone_inline_generates (o : CertOracle) (s : Server)
    (hx : (o.Getenv envCertName ≠ [] ∧ o.Getenv envKeyName = []) ∨
      (o.Getenv envCertName = [] ∧ o.Getenv envKeyName ≠ []))
    (hc : s.Cert = []) (hk : s.Key = []) :
    (certSwitch o s).1.head? = some (.generateCertificate s.ServerName) ∧
    (certSwitch o s).2 ≠ .err errMissingCertOrKey ∧
    (∀ r, GenerateCertificate o.gen s.ServerName none = some r → r.err = none →
      certSwitch o s =
        ([.generateCertificate s.ServerName,
          .log ("warnning: you are using a tmp certificate with dns name: ".toList
            ++ r.dnsName),
          .x509KeyPair r.certPEM r.keyPEM],
          match o.X509KeyPair r.certPEM r.keyPEM with
          | .error e => .err (.wrap "cannot load x509 key pair from memory: ".toList e)
          | .ok cer => .ok cer)) := by
  have hin : ¬ (o.Getenv envCertName ≠ [] ∧ o.Getenv envKeyName ≠ []) := by
    rcases hx with ⟨_, h⟩ | ⟨h, _⟩
    · exact fun hh => hh.2 h
    · exact fun hh => hh.1 h
  rw [certSwitch_ephemeral_branch o s hin hc hk]
  cases hg : GenerateCertificate o.gen s.ServerName none with
  | none => simp [errMissingCertOrKey]
  | some r =>
    cases he : r.err with
    | some e => simp [he, errMissingCertOrKey]
    | none =>
      refine ⟨by simp [he], ?_, ?_⟩
      · simp only [he]
        cases o.X509KeyPair r.certPEM r.keyPEM <;> simp [errMissingCertOrKey]
      · intro r2 hr2 he2
        cases hr2
        simp [he]

/-- C3, as the code has it, with only the inline certificate set. -/
theorem certSwitch_lone_inline_generates_witness :
    (certSwitch (sampleOracle "CERT".toList []) { ServerName := "example.test".toList }).1.head?
      = some (.generateCertificate "example.test".toList) ∧
    (certSwitch (sampleOracle "CERT".toList []) { ServerName := "example.test".toList }).2
      ≠ .err errMissingCertOrKey :=
  have h := certSwitch_lone_inline_generates (sampleOracle "CERT".toList [])
    { ServerName := "example.test".toList } (Or.inl ⟨by decide, by decide⟩) rfl rfl
  ⟨h.1, h.2.1⟩

/-- C3 as stated fails: with only the inline certificate set and both disk
paths empty, the switch does not end with `errMissingCertOrKey`; it calls
the generator and serves the generated certificate. -/
theorem certSwitch_lone_inline_counterexample :
    (sampleOracle "CERT".toList []).Getenv envCertName ≠ [] ∧
    (sampleOracle "CERT".toList []).Getenv envKeyName = [] ∧
    certSwitch (sampleOracle "CERT".toList []) { ServerName := "example.test".toList } =
      ([.generateCertificate "example.test".toList,
        .log "warnning: you are using a tmp certificate with dns name: example.test".toList,
        .x509KeyPair "CERTIFICATE:DER".toList "EC PRIVATE KEY:PKCS8".toList],
        .ok { certPEM := "CERTIFICATE:DER".toList, keyPEM := "EC PRIVATE KEY:PKCS8".toList }) ∧
    (certSwitch (sampleOracle "CERT".toList []) { ServerName := "example.test".toList }).2
      ≠ .err errMissingCertOrKey := by
  decide

/-- C4: when exactly one disk path is non-empty and the inline pair is not
complete, the switch ends with `errMissingCertOrKey` and makes no outside
call: no generator, no load from disk. -/
theorem certSwitch_lone_disk_missing (o : CertOracle) (s : Server)
    (hin : ¬ (o.Getenv envCertName ≠ [] ∧ o.Getenv envKeyName ≠ []))
    (hd : (s.Cert ≠ [] ∧ s.Key = []) ∨ (s.Cert = [] ∧ s.Key ≠ [])) :
    certSwitch o s = ([], .err errMissingCertOrKey) := by
  have h1 : ¬ ((o.Getenv envCertName).length > 0 ∧ (o.Getenv envKeyName).length > 0) := by
    simpa [List.length_pos] using hin
  unfold certSwitch
  simp only [h1, if_false]
  rcases hd with ⟨hc, hk⟩ | ⟨hc, hk⟩
  · have : s.Cert.length ≠ 0 := fun h => hc (List.length_eq_zero.mp h)
    simp [hk, this]
  · have : s.Key.length ≠ 0 := fun h => hk (List.length_eq_zero.mp h)
    simp [hc, this]

/-- C4, with only the certificate path set and a lone inline key. -/
theorem certSwitch_lone_disk_missing_witness :
    certSwitch (sampleOracle [] "KEY".toList) { Cert := "c.pem".toList } =
      ([], .err errMissingCertOrKey) :=
  certSwitch_lone_disk_missing (sampleOracle [] "KEY".toList) { Cert := "c.pem".toList }
    (by decide) (Or.inl ⟨by decide, rfl⟩)

/-! ## Lemmas: cutting and splitting -/

theorem cut_of_not_mem (sep : Char) : ∀ s : GoString, sep ∉ s → cut s sep = (s, [], false)
  | [], _ => rfl
  | c :: cs, h => by
    have hc : c ≠ sep := fun e => h (e ▸ List.mem_cons_self _ _)
    have hcs : sep ∉ cs := fun m => h (List.mem_cons_of_mem _ m)
    simp [cut, hc, cut_of_not_mem sep cs hcs]

theorem cut_append (sep : Char) (d : GoString) :
    ∀ p : GoString, sep ∉ p → cut (p ++ sep :: d) sep = (p, d, true)
  | [], _ => by simp [cut]
  | c :: cs, h => by
    have hc : c ≠ sep := fun e => h (e ▸ List.mem_cons_self _ _)
    have hcs : sep ∉ cs := fun m => h (List.mem_cons_of_mem _ m)
    simp [cut, hc, cut_append sep d cs hcs]

theorem exists_first_sep (sep : Char) :
    ∀ s : GoString, sep ∈ s → ∃ p d, s = p ++ sep :: d ∧ sep ∉ p
  | [], h => by simp at h
  | c :: cs, h => by
    by_cases hc : c = sep
    · exact ⟨[], cs, by simp [hc], by simp⟩
    · have hcs : sep ∈ cs := by
        rcases List.mem_cons.mp h with e | m
        · exact absurd e.symm hc
        · exact m
      obtain ⟨p, d, e, hp⟩ := exists_first_sep sep cs hcs
      refine ⟨c :: p, d, by simp [e], ?_⟩
      intro m
      rcases List.mem_cons.mp m with e2 | m2
      · exact hc e2.symm
      · exact hp m2

theorem cut_found_iff (sep : Char) (s : GoString) : (cut s sep).2.2 = true ↔ sep ∈ s := by
  constructor
  · intro h
    by_contra hn
    rw [cut_of_not_mem sep s hn] at h
    simp at h
  · intro h
    obtain ⟨p, d, e, hp⟩ := exists_first_sep sep s h
    rw [e, cut_append sep d p hp]

theorem split_of_not_mem (sep : Char) : ∀ s : GoString, sep ∉ s → split s sep = [s]
  | [], _ => rfl
  | c :: cs, h => by
    have hc : c ≠ sep := fun e => h (e ▸ List.mem_cons_self _ _)
    have hcs : sep ∉ cs := fun m => h (List.mem_cons_of_mem _ m)
    simp [split, hc, split_of_not_mem sep cs hcs]

theorem split_append (sep : Char) (rest : GoString) :
    ∀ p : GoString, sep ∉ p → split (p ++ sep :: rest) sep = p :: split rest sep
  | [], _ => by simp [split]
  | c :: cs, h => by
    have hc : c ≠ sep := fun e => h (e ▸ List.mem_cons_self _ _)
    have hcs : sep ∉ cs := fun m => h (List.mem_cons_of_mem _ m)
    simp [split, hc, split_append sep rest cs hcs]

/-- The structural `split` is the loop of `strings.Split`: cut at the
first separator, keep the text before it, go on with the text after it. -/
theorem split_eq_cut (sep : Char) (s : GoString) :
    split s sep =
      if (cut s sep).2.2 then (cut s sep).1 :: split (cut s sep).2.1 sep else [s] := by
  by_cases h : sep ∈ s
  · obtain ⟨p, d, e, hp⟩ := exists_first_sep sep s h
    rw [e, cut_append sep d p hp, split_append sep d p hp]
    simp
  · rw [cut_of_not_mem sep s h, split_of_not_mem sep s h]
    simp

theorem split_intercalate (sep : Char) :
    ∀ peers : List GoString, peers ≠ [] → (∀ p ∈ peers, sep ∉ p) →
      split ([sep].intercalate peers) sep = peers
  | [], h, _ => absurd rfl h
  | [p], _, hp => by
    simpa [List.intercalate] using split_of_not_mem sep p (hp p (List.mem_singleton_self p))
  | p :: q :: rest, _, hp => by
    have h1 : sep ∉ p := hp p (List.mem_cons_self _ _)
    have ih := split_intercalate sep (q :: rest) (by simp)
      (fun x hx => hp x (List.mem_cons_of_mem _ hx))
    have e : [sep].intercalate (p :: q :: rest) = p ++ sep :: [sep].intercalate (q :: rest) := by
      simp [List.intercalate, List.intersperse]
    rw [e, split_append sep _ p h1, ih]

/-! ## Lemmas: the route loop -/

theorem registered_append (t u : List Effect) :
    registered (t ++ u) = registered t ++ registered u := by
  induction t with
  | nil => rfl
  | cons e t ih => cases e <;> simp [registered, ih]

theorem registerPeers_cons_missing (s : Server) (peer : GoString) (rest : List GoString)
    (trace : List Effect) (h : '/' ∉ peer) :
    registerPeers s (peer :: rest) trace = (trace, some (invalidDst peer)) := by
  simp [registerPeers, cut_of_not_mem '/' peer h]

theorem registerPeers_cons_found (s : Server) (path dst : GoString) (rest : List GoString)
    (trace : List Effect) (h : '/' ∉ path) :
    registerPeers s ((path ++ '/' :: dst) :: rest) trace =
      registerPeers s rest
        (trace ++ [.log (startingLine path dst), .register path (outboundHandler s dst)]) := by
  simp [registerPeers, cut_append '/' dst path h, RegisterGRPCTunnelServerAddon]

/-- When every peer has a separator the loop returns no error and has
registered one addon per peer, in order, under the text before the peer's
first separator and for the text after it. -/
theorem registerPeers_all_found (s : Server) :
    ∀ (peers : List GoString) (trace : List Effect), (∀ p ∈ peers, '/' ∈ p) →
      (registerPeers s peers trace).2 = none ∧
      registered (registerPeers s peers trace).1 =
        registered trace ++
          peers.map (fun p => ((cut p '/').1, outboundHandler s (cut p '/').2.1))
  | [], trace, _ => by simp [registerPeers]
  | peer :: rest, trace, h => by
    obtain ⟨path, dst, e, hp⟩ := exists_first_sep '/' peer (h peer (List.mem_cons_self _ _))
    have ih := registerPeers_all_found s rest
      (trace ++ [.log (startingLine path dst), .register path (outboundHandler s dst)])
      (fun p hp => h p (List.mem_cons_of_mem _ hp))
    subst e
    rw [registerPeers_cons_found s path dst rest trace hp]
    refine ⟨ih.1, ?_⟩
    rw [ih.2, registered_append]
    simp [registered, cut_append '/' dst path hp]

/-- An error of the loop names the first peer without a separator. -/
theorem registerPeers_error_first (s : Server) :
    ∀ (peers : List GoString) (trace : List Effect) (e : GoError),
      (registerPeers s peers trace).2 = some e →
      ∃ pre peer post, peers = pre ++ peer :: post ∧ (∀ p ∈ pre, '/' ∈ p) ∧
        '/' ∉ peer ∧ e = invalidDst peer
  | [], trace, e, h => by simp [registerPeers] at h
  | peer :: rest, trace, e, h => by
    by_cases hm : '/' ∈ peer
    · obtain ⟨path, dst, e1, hp⟩ := exists_first_sep '/' peer hm
      subst e1
      rw [registerPeers_cons_found s path dst rest trace hp] at h
      obtain ⟨pre, bad, post, e2, hpre, hbad, he⟩ := registerPeers_error_first s rest _ e h
      refine ⟨(path ++ '/' :: dst) :: pre, bad, post, by simp [e2], ?_, hbad, he⟩
      intro p hp2
      rcases List.mem_cons.mp hp2 with e3 | m
      · exact e3 ▸ hm
      · exact hpre p m
    · rw [registerPeers_cons_missing s peer rest trace hm] at h
      refine ⟨[], peer, rest, rfl, by simp, hm, ?_⟩
      simpa using h.symm

/-- A peer without a separator makes the loop return an error. -/
theorem registerPeers_error_of_missing (s : Server) :
    ∀ (peers : List GoString) (trace : List Effect), (∃ p ∈ peers, '/' ∉ p) →
      ∃ peer, (registerPeers s peers trace).2 = some (invalidDst peer)
  | [], _, h => by simp at h
  | peer :: rest, trace, h => by
    by_cases hm : '/' ∈ peer
    · obtain ⟨path, dst, e1, hp⟩ := exists_first_sep '/' peer hm
      subst e1
      rw [registerPeers_cons_found s path dst rest trace hp]
      apply registerPeers_error_of_missing s rest
      obtain ⟨p, hp1, hp2⟩ := h
      rcases List.mem_cons.mp hp1 with e3 | m
      · exact absurd hm (e3 ▸ hp2)
      · exact ⟨p, m, hp2⟩
    · exact ⟨peer, by rw [registerPeers_cons_missing s peer rest trace hm]⟩

theorem registerRoutes_of_containsAny (s : Server)
    (hany : containsAny s.DstAddr "/,".toList = true) :
    registerRoutes s = registerPeers s (split s.DstAddr ',') [] := by
  unfold registerRoutes
  rw [if_pos hany]

theorem containsAny_formatRoutes (pairs : List (GoString × GoString)) (h : pairs ≠ []) :
    containsAny (formatRoutes pairs) "/,".toList = true := by
  cases pairs with
  | nil => exact absurd rfl h
  | cons pd rest =>
    cases rest with
    | nil => simp [containsAny, formatRoutes, List.intercalate]
    | cons qd rest => simp [containsAny, formatRoutes, List.intercalate, List.intersperse]

/-! ## Lemmas: the route loop over the refusing registration -/

theorem nodup_snoc {l : List GoString} {a : GoString} (hl : l.Nodup) (ha : a ∉ l) :
    (l ++ [a]).Nodup :=
  List.Nodup.append hl (List.nodup_singleton a)
    (fun _ h1 h2 => ha (List.mem_singleton.mp h2 ▸ h1))

theorem names_append_register (trace : List Effect) (line path : GoString)
    (h : TransportHandler) :
    (registered (trace ++ [.log line, .register path h])).map Prod.fst =
      (registered trace).map Prod.fst ++ [path] := by
  simp [registered_append, registered]

theorem names_append_log (trace : List Effect) (line : GoString) :
    (registered (trace ++ [.log line])).map Prod.fst = (registered trace).map Prod.fst := by
  simp [registered_append, registered]

theorem registerPeersChecked_cons_missing (s : Server) (peer : GoString)
    (rest : List GoString) (trace : List Effect) (h : '/' ∉ peer) :
    registerPeersChecked s (peer :: rest) trace = (trace, some (invalidDst peer)) := by
  simp [registerPeersChecked, cut_of_not_mem '/' peer h]

theorem registerPeersChecked_cons_new (s : Server) (path dst : GoString)
    (rest : List GoString) (trace : List Effect) (h : '/' ∉ path)
    (hnew : path ∉ (registered trace).map Prod.fst) :
    registerPeersChecked s ((path ++ '/' :: dst) :: rest) trace =
      registerPeersChecked s rest
        (trace ++ [.log (startingLine path dst), .register path (outboundHandler s dst)]) := by
  have hnew2 : path ∉ (registered (trace ++ [.log (startingLine path dst)])).map Prod.fst := by
    rw [names_append_log]; exact hnew
  rw [registerPeersChecked]
  simp only [cut_append '/' dst path h, registerAddonChecked, if_neg hnew2,
    RegisterGRPCTunnelServerAddon, List.append_assoc, List.singleton_append]

theorem registerPeersChecked_cons_repeated (s : Server) (path dst : GoString)
    (rest : List GoString) (trace : List Effect) (h : '/' ∉ path)
    (hold : path ∈ (registered trace).map Prod.fst) :
    registerPeersChecked s ((path ++ '/' :: dst) :: rest) trace =
      (trace ++ [.log (startingLine path dst)], some (DuplicatePathError path)) := by
  have hold2 : path ∈ (registered (trace ++ [.log (startingLine path dst)])).map Prod.fst := by
    rw [names_append_log]; exact hold
  rw [registerPeersChecked]
  simp only [cut_append '/' dst path h, registerAddonChecked, if_pos hold2]

/-- The registered names stay free of repetition. -/
theorem registerPeersChecked_nodup (s : Server) :
    ∀ (peers : List GoString) (trace : List Effect),
      ((registered trace).map Prod.fst).Nodup →
      ((registered (registerPeersChecked s peers trace).1).map Prod.fst).Nodup
  | [], trace, hn => by simpa [registerPeersChecked] using hn
  | peer :: rest, trace, hn => by
    by_cases hm : '/' ∈ peer
    · obtain ⟨path, dst, e, hp⟩ := exists_first_sep '/' peer hm
      subst e
      by_cases hold : path ∈ (registered trace).map Prod.fst
      · rw [registerPeersChecked_cons_repeated s path dst rest trace hp hold]
        simpa [names_append_log] using hn
      · rw [registerPeersChecked_cons_new s path dst rest trace hp hold]
        apply registerPeersChecked_nodup s rest
        rw [names_append_register]
        exact nodup_snoc hn hold
    · rw [registerPeersChecked_cons_missing s peer rest trace hm]
      exact hn

/-- The loop returns no error only when every peer has a separator and no
path repeats a registered name or an earlier path. -/
theorem registerPeersChecked_ok (s : Server) :
    ∀ (peers : List GoString) (trace : List Effect),
      ((registered trace).map Prod.fst).Nodup →
      (registerPeersChecked s peers trace).2 = none →
      (∀ p ∈ peers, '/' ∈ p) ∧
        ((registered trace).map Prod.fst ++ peers.map (fun p => (cut p '/').1)).Nodup
  | [], trace, hn, _ => by simpa using hn
  | peer :: rest, trace, hn, h => by
    by_cases hm : '/' ∈ peer
    · obtain ⟨path, dst, e, hp⟩ := exists_first_sep '/' peer hm
      subst e
      by_cases hold : path ∈ (registered trace).map Prod.fst
      · rw [registerPeersChecked_cons_repeated s path dst rest trace hp hold] at h
        simp at h
      · rw [registerPeersChecked_cons_new s path dst rest trace hp hold] at h
        have hn2 : ((registered (trace ++ [.log (startingLine path dst),
            .register path (outboundHandler s dst)])).map Prod.fst).Nodup := by
          rw [names_append_register]
          exact nodup_snoc hn hold
        obtain ⟨h1, h2⟩ := registerPeersChecked_ok s rest _ hn2 h
        rw [names_append_register] at h2
        refine ⟨?_, ?_⟩
        · intro p hp2
          rcases List.mem_cons.mp hp2 with e3 | m
          · exact e3 ▸ hm
          · exact h1 p m
        · simpa [cut_append '/' dst path hp] using h2
    · rw [registerPeersChecked_cons_missing s peer rest trace hm] at h
      simp at h

/-- An error of the loop is the invalid-route error of a peer without a
separator, or `DuplicatePathError`. -/
theorem registerPeersChecked_error_kind (s : Server) :
    ∀ (peers : List GoString) (trace : List Effect) (e : GoError),
      (registerPeersChecked s peers trace).2 = some e →
      (∃ peer ∈ peers, '/' ∉ peer ∧ e = invalidDst peer) ∨ ∃ path, e = DuplicatePathError path
  | [], trace, e, h => by simp [registerPeersChecked] at h
  | peer :: rest, trace, e, h => by
    by_cases hm : '/' ∈ peer
    · obtain ⟨path, dst, e1, hp⟩ := exists_first_sep '/' peer hm
      subst e1
      by_cases hold : path ∈ (registered trace).map Prod.fst
      · rw [registerPeersChecked_cons_repeated s path dst rest trace hp hold] at h
        exact Or.inr ⟨path, by simpa using h.symm⟩
      · rw [registerPeersChecked_cons_new s path dst rest trace hp hold] at h
        rcases registerPeersChecked_error_kind s rest _ e h with ⟨p, hp1, hp2, hp3⟩ | hd
        · exact Or.inl ⟨p, List.mem_cons_of_mem _ hp1, hp2, hp3⟩
        · exact Or.inr hd
    · rw [registerPeersChecked_cons_missing s peer rest trace hm] at h
      exact Or.inl ⟨peer, List.mem_cons_self _ _, hm, by simpa using h.symm⟩

/-- When every peer has a separator, an error of the loop is
`DuplicatePathError` for the first peer whose path repeats a registered
name or an earlier path. -/
theorem registerPeersChecked_error_first (s : Server) :
    ∀ (peers : List GoString) (trace : List Effect),
      ((registered trace).map Prod.fst).Nodup →
      (∀ p ∈ peers, '/' ∈ p) →
      ∀ e, (registerPeersChecked s peers trace).2 = some e →
      ∃ pre peer post, peers = pre ++ peer :: post ∧
        ((registered trace).map Prod.fst ++ pre.map (fun p => (cut p '/').1)).Nodup ∧
        (cut peer '/').1 ∈
          (registered trace).map Prod.fst ++ pre.map (fun p => (cut p '/').1) ∧
        e = DuplicatePathError (cut peer '/').1
  | [], trace, _, _, e, h => by simp [registerPeersChecked] at h
  | peer :: rest, trace, hn, hall, e, h => by
    obtain ⟨path, dst, e1, hp⟩ := exists_first_sep '/' peer (hall peer (List.mem_cons_self _ _))
    subst e1
    by_cases hold : path ∈ (registered trace).map Prod.fst
    · rw [registerPeersChecked_cons_repeated s path dst rest trace hp hold] at h
      refine ⟨[], path ++ '/' :: dst, rest, rfl, by simpa using hn, ?_, ?_⟩
      · rw [cut_append '/' dst path hp]
        exact List.mem_append_left _ hold
      · rw [cut_append '/' dst path hp]
        simpa using h.symm
    · rw [registerPeersChecked_cons_new s path dst rest trace hp hold] at h
      have hn2 : ((registered (trace ++ [.log (startingLine path dst),
          .register path (outboundHandler s dst)])).map Prod.fst).Nodup := by
        rw [names_append_register]
        exact nodup_snoc hn hold
      obtain ⟨pre, bad, post, e2, h2, h3, h4⟩ :=
        registerPeersChecked_error_first s rest _ hn2
          (fun p hp2 => hall p (List.mem_cons_of_mem _ hp2)) e h
      rw [names_append_register] at h2 h3
      refine ⟨(path ++ '/' :: dst) :: pre, bad, post, by simp [e2], ?_, ?_, h4⟩
      · simpa [cut_append '/' dst path hp] using h2
      · have hc : (cut (path ++ '/' :: dst) '/').1 = path := by
          rw [cut_append '/' dst path hp]
        rw [List.map_cons, hc]
        rw [List.append_assoc] at h3
        exact h3

/-- On a spec without a repeated path the refusing registration changes
nothing: the loop does what `registerPeers` does. -/
theorem registerPeersChecked_eq_registerPeers (s : Server) :
    ∀ (peers : List GoString) (trace : List Effect),
      ((registered trace).map Prod.fst ++ peers.map (fun p => (cut p '/').1)).Nodup →
      registerPeersChecked s peers trace = registerPeers s peers trace
  | [], trace, _ => by simp [registerPeersChecked, registerPeers]
  | peer :: rest, trace, hn => by
    by_cases hm : '/' ∈ peer
    · obtain ⟨path, dst, e, hp⟩ := exists_first_sep '/' peer hm
      subst e
      have hn1 : ((registered trace).map Prod.fst ++ [path] ++
          rest.map (fun p => (cut p '/').1)).Nodup := by
        simpa [cut_append '/' dst path hp] using hn
      have hold : path ∉ (registered trace).map Prod.fst := by
        intro hin
        have h1 := (List.nodup_append.mp hn1).1
        exact (List.nodup_append.mp h1).2.2 hin (List.mem_singleton_self path)
      rw [registerPeersChecked_cons_new s path dst rest trace hp hold,
        registerPeers_cons_found s path dst rest trace hp]
      apply registerPeersChecked_eq_registerPeers s rest
      rw [names_append_register]
      exact hn1
    · rw [registerPeersChecked_cons_missing s peer rest trace hm,
        registerPeers_cons_missing s peer rest trace hm]

/-! ## Theorems: route parsing -/

/-- C5 as stated fails: in the spec `badspec,a/10.0.0.1:443,a/10.0.0.2:443`
two peers share the path `a`, and parsing fails at the first peer with
`invalid dst value [badspec]`, not with `DuplicatePathError`; no
registration is made, so this holds whatever a registration does. -/
theorem registerRoutes_duplicate_counterexample :
    ¬ ((split "badspec,a/10.0.0.1:443,a/10.0.0.2:443".toList ',').map
        (fun p => (cut p '/').1)).Nodup ∧
    registerRoutes { DstAddr := "badspec,a/10.0.0.1:443,a/10.0.0.2:443".toList } =
      ([], some (.msg "invalid dst value [badspec]".toList)) ∧
    registerRoutesChecked { DstAddr := "badspec,a/10.0.0.1:443,a/10.0.0.2:443".toList } =
      ([], some (.msg "invalid dst value [badspec]".toList)) ∧
    (registerRoutesChecked { DstAddr := "badspec,a/10.0.0.1:443,a/10.0.0.2:443".toList }).2 ≠
      some (DuplicatePathError "a".toList) := by
  decide

/-- C5, amended: for every spec whose comma-separated peers include two
peers with the same path, parsing fails and never registers two entries
under one path.  The error is `DuplicatePathError` or the invalid-route
error of a peer without `/`; and when every peer contains `/` it is
`DuplicatePathError` for the first peer whose path repeats an earlier
one. -/
theorem registerRoutesChecked_duplicate (s : Server)
    (hdup : ¬ ((split s.DstAddr ',').map (fun p => (cut p '/').1)).Nodup) :
    (∃ e, (registerRoutesChecked s).2 = some e ∧
      ((∃ peer ∈ split s.DstAddr ',', '/' ∉ peer ∧ e = invalidDst peer) ∨
        ∃ path, e = DuplicatePathError path)) ∧
    ((∀ p ∈ split s.DstAddr ',', '/' ∈ p) →
      ∃ pre peer post, split s.DstAddr ',' = pre ++ peer :: post ∧
        (pre.map (fun p => (cut p '/').1)).Nodup ∧
        (cut peer '/').1 ∈ pre.map (fun p => (cut p '/').1) ∧
        (registerRoutesChecked s).2 = some (DuplicatePathError (cut peer '/').1)) ∧
    ((registered (registerRoutesChecked s).1).map Prod.fst).Nodup := by
  have hany : containsAny s.DstAddr "/,".toList = true := by
    by_contra hc
    have hn : ',' ∉ s.DstAddr := by
      intro hm
      apply hc
      simp only [containsAny, List.any_eq_true]
      exact ⟨',', hm, by decide⟩
    rw [split_of_not_mem ',' s.DstAddr hn] at hdup
    simp at hdup
  have hr : registerRoutesChecked s = registerPeersChecked s (split s.DstAddr ',') [] := by
    unfold registerRoutesChecked
    rw [if_pos hany]
  have hnil : ((registered ([] : List Effect)).map Prod.fst).Nodup := by simp [registered]
  rw [hr]
  have hsome : ∃ e, (registerPeersChecked s (split s.DstAddr ',') []).2 = some e := by
    cases h : (registerPeersChecked s (split s.DstAddr ',') []).2 with
    | some e => exact ⟨e, rfl⟩
    | none =>
      have := (registerPeersChecked_ok s _ [] hnil h).2
      simp only [registered, List.map_nil, List.nil_append] at this
      exact absurd this hdup
  obtain ⟨e, he⟩ := hsome
  refine ⟨⟨e, he, registerPeersChecked_error_kind s _ [] e he⟩, ?_,
    registerPeersChecked_nodup s _ [] hnil⟩
  intro hall
  obtain ⟨pre, peer, post, h1, h2, h3, h4⟩ :=
    registerPeersChecked_error_first s _ [] hnil hall e he
  simp only [registered, List.map_nil, List.nil_append] at h2 h3
  exact ⟨pre, peer, post, h1, h2, h3, by rw [he, h4]⟩

/-- C5, amended, at the spec `a/10.0.0.1:443,b/10.0.0.2:443,a/10.0.0.3:443`:
parsing fails with `DuplicatePathError` for `a` after registering `a` and
`b` once each. -/
theorem registerRoutesChecked_duplicate_witness :
    (registerRoutesChecked
        { DstAddr := "a/10.0.0.1:443,b/10.0.0.2:443,a/10.0.0.3:443".toList }).2 =
      some (DuplicatePathError "a".toList) ∧
    ((registered (registerRoutesChecked
        { DstAddr := "a/10.0.0.1:443,b/10.0.0.2:443,a/10.0.0.3:443".toList }).1).map
      Prod.fst).Nodup :=
  ⟨by decide,
    (registerRoutesChecked_duplicate
      { DstAddr := "a/10.0.0.1:443,b/10.0.0.2:443,a/10.0.0.3:443".toList } (by decide)).2.2⟩

/-- C6 as stated fails: the empty spec is parsed without error into one
route, under the default service name, with an empty destination; and the
specs `a/` and `a/10.0.0.1:443,b/` are parsed without error into routes
with an empty destination. -/
theorem registerRoutes_empty_counterexample :
    registerRoutes { DstAddr := [], GRPCServiceName := "svc".toList } =
      ([.register "svc".toList (.dst [] 0 0)], none) ∧
    (registerRoutes { DstAddr := "a/".toList }).2 = none ∧
    registered (registerRoutes { DstAddr := "a/".toList }).1 = [("a".toList, .dst [] 0 0)] ∧
    (registerRoutes { DstAddr := "a/10.0.0.1:443,b/".toList }).2 = none ∧
    registered (registerRoutes { DstAddr := "a/10.0.0.1:443,b/".toList }).1 =
      [("a".toList, .dst "10.0.0.1:443".toList 0 0), ("b".toList, .dst [] 0 0)] := by
  decide

/-- C6, as the code has it: route parsing does not look at destinations.
The empty spec is parsed without error into the single route registered
under the default service name, with the empty destination; and for every
spec all of whose peers contain a separator, parsing returns no error and
every peer that ends at its first separator is registered with the empty
destination. -/
theorem registerRoutes_empty_destination (s : Server) :
    (s.DstAddr = [] →
      registerRoutes s = ([.register s.GRPCServiceName (outboundHandler s [])], none)) ∧
    (containsAny s.DstAddr "/,".toList = true →
      (∀ p ∈ split s.DstAddr ',', '/' ∈ p) →
      (registerRoutes s).2 = none ∧
      ∀ path, '/' ∉ path → path ++ ['/'] ∈ split s.DstAddr ',' →
        (path, outboundHandler s []) ∈ registered (registerRoutes s).1) := by
  constructor
  · intro h
    simp [registerRoutes, h, containsAny, RegisterGRPCTunnelServerAddon]
  · intro hany hall
    have h := registerPeers_all_found s (split s.DstAddr ',') [] hall
    have hr := registerRoutes_of_containsAny s hany
    rw [hr]
    refine ⟨h.1, ?_⟩
    intro path hp hmem
    rw [h.2]
    simp only [registered, List.nil_append, List.mem_map]
    exact ⟨path ++ ['/'], hmem, by rw [cut_append '/' [] path hp]⟩

/-- C6, as the code has it, at the empty spec and at `a/10.0.0.1:443,b/`. -/
theorem registerRoutes_empty_destination_witness :
    registerRoutes { DstAddr := [], GRPCServiceName := "svc".toList } =
      ([.register "svc".toList (.dst [] 0 0)], none) ∧
    ("b".toList, TransportHandler.dst [] 0 0) ∈
      registered (registerRoutes { DstAddr := "a/10.0.0.1:443,b/".toList }).1 :=
  ⟨(registerRoutes_empty_destination
      { DstAddr := [], GRPCServiceName := "svc".toList }).1 rfl,
    ((registerRoutes_empty_destination { DstAddr := "a/10.0.0.1:443,b/".toList }).2
      (by decide) (by decide)).2 "b".toList (by decide) (by decide)⟩

/-- C7: for every spec containing `/` or `,`, parsing fails with the
invalid-route error if and only if some comma-separated peer contains no
`/`; and every error it returns is `invalid dst value [<peer>]` for the
first such peer in declared order. -/
theorem registerRoutes_invalid_iff (s : Server)
    (hany : containsAny s.DstAddr "/,".toList = true) :
    ((∃ peer, (registerRoutes s).2 = some (invalidDst peer)) ↔
      ∃ peer ∈ split s.DstAddr ',', '/' ∉ peer) ∧
    (∀ e, (registerRoutes s).2 = some e →
      ∃ pre peer post, split s.DstAddr ',' = pre ++ peer :: post ∧
        (∀ p ∈ pre, '/' ∈ p) ∧ '/' ∉ peer ∧
        e = .msg ("invalid dst value [".toList ++ peer ++ "]".toList)) := by
  have hr := registerRoutes_of_containsAny s hany
  rw [hr]
  refine ⟨⟨?_, registerPeers_error_of_missing s _ []⟩,
    registerPeers_error_first s (split s.DstAddr ',') []⟩
  rintro ⟨peer, h⟩
  obtain ⟨pre, bad, post, e, _, hbad, _⟩ := registerPeers_error_first s _ [] _ h
  exact ⟨bad, by simp [e], hbad⟩

/-- C7, at the spec `a/10.0.0.1:443,badspec,worse`: the error names
`badspec`, the first peer without a separator. -/
theorem registerRoutes_invalid_iff_witness :
    containsAny "a/10.0.0.1:443,badspec,worse".toList "/,".toList = true ∧
    (registerRoutes { DstAddr := "a/10.0.0.1:443,badspec,worse".toList }).2 =
      some (.msg "invalid dst value [badspec]".toList) ∧
    ((∃ peer, (registerRoutes { DstAddr := "a/10.0.0.1:443,badspec,worse".toList }).2 =
        some (invalidDst peer)) ↔
      ∃ peer ∈ split "a/10.0.0.1:443,badspec,worse".toList ',', '/' ∉ peer) :=
  ⟨by decide, by decide,
    (registerRoutes_invalid_iff { DstAddr := "a/10.0.0.1:443,badspec,worse".toList }
      (by decide)).1⟩

/-- C8: for every non-empty list of (path, destination) pairs in which no
path contains `/` or `,` and no destination contains `,`, parsing the
pairs written as `path/destination` and joined by commas returns no error
and registers exactly those pairs, in the same order; a destination may
itself contain `/`. -/
theorem registerRoutes_formatRoutes (s : Server) (pairs : List (GoString × GoString))
    (hne : pairs ≠ [])
    (hp : ∀ pd ∈ pairs, '/' ∉ pd.1 ∧ ',' ∉ pd.1 ∧ ',' ∉ pd.2)
    (hd : s.DstAddr = formatRoutes pairs) :
    (registerRoutes s).2 = none ∧
    registered (registerRoutes s).1 =
      pairs.map (fun pd => (pd.1, outboundHandler s pd.2)) := by
  have hany : containsAny s.DstAddr "/,".toList = true := by
    rw [hd]; exact containsAny_formatRoutes pairs hne
  have hr := registerRoutes_of_containsAny s hany
  have hs : split s.DstAddr ',' = pairs.map (fun pd => pd.1 ++ '/' :: pd.2) := by
    rw [hd]
    apply split_intercalate
    · simpa using hne
    · intro p hmem
      obtain ⟨pd, hpd, e⟩ := List.mem_map.mp hmem
      have := hp pd hpd
      subst e
      simp [this.2.1, this.2.2]
  have hall : ∀ p ∈ split s.DstAddr ',', '/' ∈ p := by
    rw [hs]
    intro p hmem
    obtain ⟨pd, _, e⟩ := List.mem_map.mp hmem
    subst e
    simp
  have h := registerPeers_all_found s (split s.DstAddr ',') [] hall
  rw [hr]
  refine ⟨h.1, ?_⟩
  rw [h.2, hs]
  simp only [registered, List.nil_append, List.map_map]
  apply List.map_congr_left
  intro pd hpd
  simp [cut_append '/' pd.2 pd.1 (hp pd hpd).1]

/-- C8, at two pairs, the first with a destination that contains `/`. -/
theorem registerRoutes_formatRoutes_witness :
    formatRoutes [("a".toList, "10.0.0.1:443/x".toList), ("b".toList, "10.0.0.2:443".toList)] =
      "a/10.0.0.1:443/x,b/10.0.0.2:443".toList ∧
    registered (registerRoutes { DstAddr := "a/10.0.0.1:443/x,b/10.0.0.2:443".toList }).1 =
      [("a".toList, .dst "10.0.0.1:443/x".toList 0 0),
       ("b".toList, .dst "10.0.0.2:443".toList 0 0)] :=
  ⟨by decide,
    (registerRoutes_formatRoutes { DstAddr := "a/10.0.0.1:443/x,b/10.0.0.2:443".toList }
      [("a".toList, "10.0.0.1:443/x".toList), ("b".toList, "10.0.0.2:443".toList)]
      (by decide) (by decide) (by decide)).2⟩

/-! ## Lemmas: the random server name -/

theorem alphabet_lowercase : ∀ c ∈ alphabet, 'a' ≤ c ∧ c ≤ 'z' := by
  decide

theorem Intn_pos (r : Rand) (n : Nat) (h : 0 < n) :
    ∃ k, k < n ∧ r.Intn n = some (k, { r with pos := r.pos + 1 }) := by
  refine ⟨r.draws r.pos % n, Nat.mod_lt _ h, ?_⟩
  simp [Rand.Intn, Nat.pos_iff_ne_zero.mp h]

/-- The function `randStr` never panics: it returns `length` characters of
the alphabet. -/
theorem randStr_spec : ∀ (length : Nat) (r : Rand),
    ∃ l r2, randStr length r = some (l, r2) ∧ l.length = length ∧ ∀ c ∈ l, c ∈ alphabet
  | 0, r => ⟨[], r, rfl, rfl, by simp⟩
  | length + 1, r => by
    obtain ⟨k, hk, hI⟩ := Intn_pos r alphabet.length (by decide)
    obtain ⟨l, r2, hl, hlen, hmem⟩ := randStr_spec length { r with pos := r.pos + 1 }
    refine ⟨alphabet.get ⟨k, hk⟩ :: l, r2, ?_, by simp [hlen], ?_⟩
    · simp [randStr, hI, hl, List.getElem?_eq_getElem hk]
    · intro c hc
      rcases List.mem_cons.mp hc with e | m
      · exact e ▸ List.get_mem _ _ _
      · exact hmem c m

/-- The function `randServerName` never panics: it returns two labels of
alphabet characters, of 3 to 7 and of 1 to 3 characters, with a dot
between them. -/
theorem randServerName_spec (r : Rand) :
    ∃ l1 l2, randServerName r = some (l1 ++ '.' :: l2) ∧
      3 ≤ l1.length ∧ l1.length ≤ 7 ∧ 1 ≤ l2.length ∧ l2.length ≤ 3 ∧
      (∀ c ∈ l1, c ∈ alphabet) ∧ (∀ c ∈ l2, c ∈ alphabet) := by
  obtain ⟨n1, hn1, hI1⟩ := Intn_pos r 5 (by decide)
  obtain ⟨l1, r2, hl1, hlen1, hmem1⟩ := randStr_spec (n1 + 3) { r with pos := r.pos + 1 }
  obtain ⟨n2, hn2, hI2⟩ := Intn_pos r2 3 (by decide)
  obtain ⟨l2, r4, hl2, hlen2, hmem2⟩ := randStr_spec (n2 + 1) { r2 with pos := r2.pos + 1 }
  refine ⟨l1, l2, ?_, by omega, by omega, by omega, by omega, hmem1, hmem2⟩
  simp [randServerName, hI1, hl1, hI2, hl2]

theorem randServerName_ne_nil (r : Rand) (name : GoString)
    (h : randServerName r = some name) : name ≠ [] := by
  obtain ⟨l1, l2, e, _⟩ := randServerName_spec r
  rw [e] at h
  cases h
  simp

/-! ## Theorems: the random server name -/

/-- C9: whatever the random source yields, `randServerName` returns
`L1 ++ "." ++ L2` with `L1` of 3 to 7 and `L2` of 1 to 3 characters, all of
them lowercase letters `a..z`; the result has exactly one dot and is not
empty; and `randStr` returns for every length and source, so the index
into the alphabet is never out of range. -/
theorem randServerName_shape (r : Rand) :
    (∃ l1 l2, randServerName r = some (l1 ++ ".".toList ++ l2) ∧
      3 ≤ l1.length ∧ l1.length ≤ 7 ∧ 1 ≤ l2.length ∧ l2.length ≤ 3 ∧
      (∀ c ∈ l1, 'a' ≤ c ∧ c ≤ 'z') ∧ (∀ c ∈ l2, 'a' ≤ c ∧ c ≤ 'z') ∧
      (l1 ++ ".".toList ++ l2).count '.' = 1 ∧ l1 ++ ".".toList ++ l2 ≠ []) ∧
    (∀ length, ∃ l r2, randStr length r = some (l, r2) ∧ l.length = length ∧
      ∀ c ∈ l, 'a' ≤ c ∧ c ≤ 'z') := by
  constructor
  · obtain ⟨l1, l2, e, h1, h2, h3, h4, hm1, hm2⟩ := randServerName_spec r
    have hd : '.' ∉ alphabet := by decide
    have c1 : l1.count '.' = 0 := List.count_eq_zero.mpr (fun m => hd (hm1 _ m))
    have c2 : l2.count '.' = 0 := List.count_eq_zero.mpr (fun m => hd (hm2 _ m))
    refine ⟨l1, l2, by simpa using e, h1, h2, h3, h4,
      fun c hc => alphabet_lowercase c (hm1 c hc),
      fun c hc => alphabet_lowercase c (hm2 c hc), ?_, by simp⟩
    simp [List.count_append, c1, c2]
  · intro length
    obtain ⟨l, r2, hl, hlen, hmem⟩ := randStr_spec length r
    exact ⟨l, r2, hl, hlen, fun c hc => alphabet_lowercase c (hmem c hc)⟩

/-! ## Lemmas: the generated DNS name -/

theorem signAndEncode_dnsName (o : GenOracle) (key : Nat) (dnsName : GoString)
    (template : Certificate) : (signAndEncode o key dnsName template).dnsName = dnsName := by
  unfold signAndEncode
  simp only
  split
  · rfl
  · split
    · rfl
    · split <;> rfl

/-- A successful `GenerateCertificate` returns the name chosen by
`prepareTemplate` from the name chosen by `chooseDNSName`. -/
theorem GenerateCertificate_ok (o : GenOracle) (serverName : GoString)
    (template : Option Certificate) (r : GenResult)
    (hr : GenerateCertificate o serverName template = some r) (hok : r.err = none) :
    ∃ d0 t, chooseDNSName o serverName = some d0 ∧
      prepareTemplate o d0 template = .ok (r.dnsName, t) := by
  unfold GenerateCertificate at hr
  cases hk : o.GenerateKey with
  | error e =>
    simp only [hk] at hr
    cases hr
    simp at hok
  | ok key =>
    simp only [hk] at hr
    cases hc : chooseDNSName o serverName with
    | none => simp [hc] at hr
    | some d0 =>
      simp only [hc] at hr
      cases hp : prepareTemplate o d0 template with
      | error e =>
        simp only [hp] at hr
        cases hr
        simp at hok
      | ok dt =>
        obtain ⟨d, t⟩ := dt
        simp only [hp] at hr
        cases hr
        exact ⟨d0, t, rfl, by rw [signAndEncode_dnsName]; exact hp⟩

theorem chooseDNSName_ne_nil (o : GenOracle) (serverName d0 : GoString)
    (h : chooseDNSName o serverName = some d0) : d0 ≠ [] := by
  unfold chooseDNSName at h
  by_cases hs : serverName.length = 0
  · rw [if_pos hs] at h
    exact randServerName_ne_nil o.rng d0 h
  · rw [if_neg hs] at h
    cases h
    exact fun e => hs (by simp [e])

/-! ## Theorems: the generated DNS name -/

/-- C10 as stated fails: with a template whose first DNS name is the empty
string, `GenerateCertificate` succeeds (every library call succeeding) and
returns the empty string as DNS name, whatever the server name. -/
theorem GenerateCertificate_empty_dnsName_counterexample :
    GenerateCertificate sampleGen "example.test".toList
        (some { SerialNumber := some 1, DNSNames := [[], "example.test".toList] }) =
      some { dnsName := [], cert := some {}, keyPEM := "EC PRIVATE KEY:PKCS8".toList,
             certPEM := "CERTIFICATE:DER".toList, err := none } := by
  decide

/-- C10, as the code has it: whenever `GenerateCertificate` succeeds, the
DNS name it returns is the first DNS name of the template when the template
has DNS names; and it is non-empty for every server name and every
template that is absent, or has no DNS names, or has a non-empty first DNS
name. -/
theorem GenerateCertificate_dnsName (o : GenOracle) (serverName : GoString)
    (template : Option Certificate) (r : GenResult)
    (hr : GenerateCertificate o serverName template = some r) (hok : r.err = none) :
    (∀ t first rest, template = some t → t.DNSNames = first :: rest → r.dnsName = first) ∧
    ((∀ t, template = some t → t.DNSNames.head? ≠ some []) → r.dnsName ≠ []) := by
  obtain ⟨d0, t2, hc, hp⟩ := GenerateCertificate_ok o serverName template r hr hok
  have hd0 := chooseDNSName_ne_nil o serverName d0 hc
  cases template with
  | none =>
    refine ⟨by simp, fun _ => ?_⟩
    unfold prepareTemplate at hp
    cases hi : o.randInt serialNumberLimit with
    | error e => simp [hi] at hp
    | ok serial =>
      simp only [hi, Except.ok.injEq, Prod.mk.injEq] at hp
      exact hp.1 ▸ hd0
  | some t =>
    unfold prepareTemplate at hp
    cases hn : t.DNSNames with
    | nil =>
      simp only [hn, List.length_nil, gt_iff_lt, lt_self_iff_false, if_false,
        Except.ok.injEq, Prod.mk.injEq] at hp
      refine ⟨?_, fun _ => hp.1 ▸ hd0⟩
      intro t3 first rest e1 e2
      cases e1
      rw [hn] at e2
      cases e2
    | cons first rest =>
      have hpos : (first :: rest).length > 0 := by simp
      simp only [hn, hpos, if_true, List.headD_cons, Except.ok.injEq, Prod.mk.injEq] at hp
      refine ⟨?_, ?_⟩
      · intro t3 first3 rest3 e1 e2
        cases e1
        rw [hn] at e2
        cases e2
        exact hp.1.symm
      · intro h
        have := h t rfl
        rw [hn] at this
        rw [← hp.1]
        intro e
        exact this (by simp [e])

/-- C10, as the code has it, for an empty server name and no template. -/
theorem GenerateCertificate_dnsName_witness :
    GenerateCertificate sampleGen [] none = some sampleResult ∧
    sampleResult.err = none ∧ sampleResult.dnsName ≠ [] :=
  ⟨by decide, rfl,
    (GenerateCertificate_dnsName sampleGen [] none sampleResult (by decide) rfl).2
      (fun _ h => nomatch h)⟩

end SimpleTLS
